import Mathlib

/-!
Verification of the availability interpreter and alert deduplication of the
mre_bot train-seat monitor.

The embedding models the HTML documents consumed by the interpreter as a
tree of element and text nodes (mirroring the BeautifulSoup document tree),
and transcribes the two interpreter implementations:

* AvailabilityChecker.check_availability   (src/train_monitor.py, lines 176-305)
* check_trains_available / parse_available_trains  (src/main.py, lines 140-241)

together with the de-duplicating alert logic of TrainMonitor.check_job
(src/train_monitor.py, lines 396-411).

Python dictionaries with optional keys become structures with Option fields;
Python string helpers (strip, upper, lower, split, substring membership, the
regex search for a seat count, str.isdigit filtering, int conversion) are
transcribed as executable functions on Lean strings; the soup traversal
primitives find / find_all / find_next are modelled over the preorder
flattening of the document, with each node paired with its preorder index so
that find_next can search the remainder of the whole document, exactly as
BeautifulSoup's next_elements chain does.
-/

namespace MreBot

/-- Document tree node: an element with tag, class list (the multi-valued
HTML class attribute, as BeautifulSoup exposes it), remaining attributes and
children, or a text node. -/
inductive Html where
  | elem (tag : String) (classes : List String) (attrs : List (String × String)) (children : List Html)
  | text (s : String)

/-- Whitespace as recognised by Python str.strip and the regex class \s
(ASCII range, which is all the scraped pages use). -/
def pyIsSpace (c : Char) : Bool :=
  c = ' ' || c = '\t' || c = '\n' || c = '\r' || c = '\x0b' || c = '\x0c'

/-- Python str.strip(): drop leading and trailing whitespace. -/
def pyStrip (s : String) : String :=
  String.mk (((s.toList.dropWhile pyIsSpace).reverse.dropWhile pyIsSpace).reverse)

/-- Boolean test that pat occurs at the head of l. -/
def isLeadOf : List Char → List Char → Bool
  | [], _ => true
  | _ :: _, [] => false
  | p :: ps, c :: cs => p == c && isLeadOf ps cs

/-- Boolean test that pat occurs contiguously somewhere in l. -/
def isWithin (pat : List Char) : List Char → Bool
  | [] => pat.isEmpty
  | c :: rest => isLeadOf pat (c :: rest) || isWithin pat rest

/-- Python substring membership: sub in s. -/
def pyContains (s sub : String) : Bool := isWithin sub.toList s.toList

/-- Python str.upper() (ASCII, which is all the scraped pages use). -/
def pyUpper (s : String) : String := String.mk (s.toList.map Char.toUpper)

/-- Python str.lower() (ASCII). -/
def pyLower (s : String) : String := String.mk (s.toList.map Char.toLower)

/-- Python str.split(sep) for a one-character separator: the (non-empty)
list of segments between occurrences of sep. -/
def splitOnChar (sep : Char) : List Char → List (List Char)
  | [] => [[]]
  | c :: rest =>
    let r := splitOnChar sep rest
    if c == sep then [] :: r
    else
      match r with
      | [] => [[c]]
      | h :: t => (c :: h) :: t

/-- Value of a list of decimal digit characters, as Python int() computes it. -/
def digitsToNat (l : List Char) : Nat := l.foldl (fun a c => a * 10 + (c.toNat - 48)) 0

/-- Decimal digit characters of n, most significant first, accumulated onto
acc; fuel-driven so that the definition is structural and kernel-reducible. -/
def natToStrGo : Nat → Nat → List Char → List Char
  | 0, _, acc => acc
  | f + 1, n, acc =>
    if n < 10 then Char.ofNat (48 + n) :: acc
    else natToStrGo f (n / 10) (Char.ofNat (48 + n % 10) :: acc)

/-- Decimal digit characters of n (fuel n + 1 always suffices). -/
def natToStrList (n : Nat) : List Char := natToStrGo (n + 1) n []

/-- Decimal rendering of a natural number, as a Python f-string renders an int. -/
def natToStr (n : Nat) : String := String.mk (natToStrList n)

mutual
/-- Text content of a node: concatenation of all descendant strings in
document order, as the BeautifulSoup .text property returns it. -/
def innerText : Html → String
  | .text s => s
  | .elem _ _ _ ch => innerTextList ch
/-- Text content of a forest, in order. -/
def innerTextList : List Html → String
  | [] => ""
  | x :: xs => innerText x ++ innerTextList xs
end

mutual
/-- Preorder walk assigning consecutive document-order indices starting at i;
returns the next free index and the indexed node list. -/
def locWalk (i : Nat) : Html → Nat × List (Nat × Html)
  | .text s => (i + 1, [(i, .text s)])
  | .elem t c a ch =>
    let r := locWalkList (i + 1) ch
    (r.1, (i, .elem t c a ch) :: r.2)
/-- Preorder walk of a forest starting at index i. -/
def locWalkList (i : Nat) : List Html → Nat × List (Nat × Html)
  | [] => (i, [])
  | x :: xs =>
    let r := locWalk i x
    let r2 := locWalkList r.1 xs
    (r2.1, r.2 ++ r2.2)
end

/-- All nodes of a parsed document in document order, each with its preorder
index; the document is the list of top-level nodes the HTML parses to. -/
def locFlat (doc : List Html) : List (Nat × Html) := (locWalkList 0 doc).2

/-- Descendants of an indexed node, in document order with their indices;
these indices agree with the node positions in the locFlat of the enclosing
document because locWalk assigns indices deterministically from the start
index. -/
def locDescendants (x : Nat × Html) : List (Nat × Html) :=
  match x.2 with
  | .text _ => []
  | .elem _ _ _ ch => (locWalkList (x.1 + 1) ch).2

/-- Tag.find(pred): first matching descendant in document order. -/
def findDesc (p : Html → Bool) (x : Nat × Html) : Option (Nat × Html) :=
  (locDescendants x).find? (fun y => p y.2)

/-- Tag.find_all(pred): all matching descendants in document order. -/
def findAllDesc (p : Html → Bool) (x : Nat × Html) : List (Nat × Html) :=
  (locDescendants x).filter (fun y => p y.2)

/-- Soup-level find over the whole document. -/
def soupFind (flat : List (Nat × Html)) (p : Html → Bool) : Option (Nat × Html) :=
  flat.find? (fun y => p y.2)

/-- Tag.find_next(pred): first matching node strictly after position i in the
document-order flattening of the whole document — BeautifulSoup's
next_elements chain. -/
def findNext (flat : List (Nat × Html)) (i : Nat) (p : Html → Bool) : Option (Nat × Html) :=
  flat.find? (fun y => decide (i < y.1) && p y.2)

/-- Element tag test. -/
def isTag (t : String) : Html → Bool
  | .elem tg _ _ _ => tg == t
  | .text _ => false

/-- Element class test: matches when the class list contains c, as a
BeautifulSoup class_ filter does. -/
def hasCls (c : String) : Html → Bool
  | .elem _ cs _ _ => cs.contains c
  | .text _ => false

/-- Attribute equality test (used for id and action filters). -/
def attrIs (k v : String) : Html → Bool
  | .elem _ _ as' _ =>
    match as'.find? (fun kv => kv.1 == k) with
    | some kv => kv.2 == v
    | none => false
  | .text _ => false

/-- Filter for the h4 class main-message heading. -/
def h4MainMessage (n : Html) : Bool := isTag "h4" n && hasCls "main-message" n

/-- Filter for the div with id form-tags (the results container). -/
def formTagsDiv (n : Html) : Bool := isTag "div" n && attrIs "id" "form-tags" n

/-- Filter for a train block: a form posting to booking-details.php. -/
def bookingForm (n : Html) : Bool := isTag "form" n && attrIs "action" "booking-details.php" n

/-- Filter for small class resulttime (newer layout time label). -/
def smallResulttime (n : Html) : Bool := isTag "small" n && hasCls "resulttime" n

/-- Filter for span class span (newer layout time value). -/
def spanSpan (n : Html) : Bool := isTag "span" n && hasCls "span" n

/-- Filter for div class time (legacy layout time value). -/
def divTime (n : Html) : Bool := isTag "div" n && hasCls "time" n

/-- Filter for an h3 heading (legacy train name). -/
def h3Tag (n : Html) : Bool := isTag "h3" n

/-- Filter for the newer layout class columns (class col-md-6 or col-sm-6). -/
def colDiv (n : Html) : Bool := isTag "div" n && (hasCls "col-md-6" n || hasCls "col-sm-6" n)

/-- Filter for the h4 class box-title heading inside a class column. -/
def boxTitle (n : Html) : Bool := isTag "h4" n && hasCls "box-title" n

/-- Filter for dl class details (newer layout price list). -/
def dlDetails (n : Html) : Bool := isTag "dl" n && hasCls "details" n

/-- Filter for a dt element. -/
def dtTag (n : Html) : Bool := isTag "dt" n

/-- Filter for a dd element. -/
def ddTag (n : Html) : Bool := isTag "dd" n

/-- Filter for the legacy class buttons (button class class-btn). -/
def classBtn (n : Html) : Bool := isTag "button" n && hasCls "class-btn" n

/-- Filter for the legacy price block (div class price-section). -/
def priceSection (n : Html) : Bool := isTag "div" n && hasCls "price-section" n

/-- Filter for span class price inside a price block. -/
def spanPrice (n : Html) : Bool := isTag "span" n && hasCls "price" n

/-- Train dictionary built by the extraction loop: each field models the
presence or absence of the corresponding key of the Python train_data dict. -/
structure TrainData where
  name : Option String := none
  departure : Option String := none
  arrival : Option String := none
  first_class_seats : Option Nat := none
  first_class_adult : Option String := none
  first_class_child : Option String := none
  economy_seats : Option Nat := none
  economy_adult : Option String := none
  economy_child : Option String := none
deriving DecidableEq

/-- Embedding of re.search of the pattern (one or more digits, one or more
whitespace characters, the literal SEATS) over a character list: the value of
the leftmost maximal digit run that is followed by whitespace and SEATS, as
used on the upper-cased box titles (train_monitor.py line 243). -/
def seatSearch : List Char → Option Nat
  | [] => none
  | c :: rest =>
    if c.isDigit then
      let run := (c :: rest).takeWhile Char.isDigit
      let after := (c :: rest).dropWhile Char.isDigit
      let ws := after.takeWhile pyIsSpace
      let rest2 := after.dropWhile pyIsSpace
      if !ws.isEmpty && isLeadOf ['S', 'E', 'A', 'T', 'S'] rest2 then
        some (digitsToNat run)
      else seatSearch rest
    else seatSearch rest

/-- Digit characters of the segment between the first and second hyphen of a
legacy class-button label (or of the literal "0" when the label has no
hyphen): join(filter(str.isdigit, class_text.split('-')[1] if '-' in
class_text else '0')), train_monitor.py lines 278 and 289. -/
def legacySeatsDigits (class_text : String) : List Char :=
  let base :=
    if pyContains class_text "-" then (splitOnChar '-' class_text.toList).getD 1 []
    else ['0']
  base.filter Char.isDigit

/-- Seat count from a legacy class-button label: int(seats) if the digit
string is non-empty, else 0. -/
def legacySeats (class_text : String) : Nat :=
  let s := legacySeatsDigits class_text
  if s.isEmpty then 0 else digitsToNat s

/-- Time extraction, newer layout first (train_monitor.py lines 202-209):
two small.resulttime labels, each contributing its span.span text when
present. -/
def timesNew (form : Nat × Html) : TrainData :=
  match findAllDesc smallResulttime form with
  | t0 :: t1 :: _ =>
    let d1 : TrainData := {}
    let d2 :=
      match findDesc spanSpan t0 with
      | some s => { d1 with departure := some (pyStrip (innerText s.2)) }
      | none => d1
    (match findDesc spanSpan t1 with
      | some s => { d2 with arrival := some (pyStrip (innerText s.2)) }
      | none => d2)
  | _ => {}

/-- Time extraction with the legacy fallback (train_monitor.py lines
212-216): when the newer layout produced no departure key, read the first
two div.time elements. -/
def extractTimes (form : Nat × Html) : TrainData :=
  let d := timesNew form
  if d.departure.isNone then
    match findAllDesc divTime form with
    | t0 :: t1 :: _ =>
      { d with departure := some (pyStrip (innerText t0.2)),
               arrival := some (pyStrip (innerText t1.2)) }
    | _ => d
  else d

/-- Train name (train_monitor.py lines 221-226): text of the first h3 when
present, else a name synthesized from the departure key, defaulting to
Unknown. -/
def extractName (d : TrainData) (form : Nat × Html) : TrainData :=
  match findDesc h3Tag form with
  | some h => { d with name := some (pyStrip (innerText h.2)) }
  | none => { d with name := some ("Train " ++ d.departure.getD "Unknown") }

/-- Adult and child prices from the details lists of one class column
(train_monitor.py lines 247-261), defaulting to the sentinel N/A when no
label matches. -/
def extractPrices (col : Nat × Html) : String × String :=
  (findAllDesc dlDetails col).foldl
    (fun pr dl =>
      match findDesc dtTag dl, findDesc ddTag dl with
      | some dt, some dd =>
        let label := pyLower (pyStrip (innerText dt.2))
        let price := pyStrip (innerText dd.2)
        if pyContains label "adult" then (price, pr.2)
        else if pyContains label "children" && pyContains label "3 - 11" then (pr.1, price)
        else pr
      | _, _ => pr)
    ("N/A", "N/A")

/-- Details list whose labels match neither price of the fold of
extractPrices: its dt and dd are not both present, or the lower-cased label
contains neither the adult marker nor both children markers — exactly the
condition under which the corresponding fold step leaves the price pair
unchanged. -/
def dlUnmatched (dl : Nat × Html) : Bool :=
  match findDesc dtTag dl, findDesc ddTag dl with
  | some dt, some _ =>
    let label := pyLower (pyStrip (innerText dt.2))
    !pyContains label "adult" &&
      !(pyContains label "children" && pyContains label "3 - 11")
  | _, _ => true

/-- One step of the newer-layout class column loop (train_monitor.py lines
233-270): accumulator is the train dictionary paired with the found_classes
flag, which is set as soon as any column carries a box-title heading. -/
def processCol (acc : TrainData × Bool) (col : Nat × Html) : TrainData × Bool :=
  match findDesc boxTitle col with
  | none => acc
  | some title =>
    let title_text := pyUpper (pyStrip (innerText title.2))
    let seats := (seatSearch title_text.toList).getD 0
    let pr := extractPrices col
    let d :=
      if pyContains title_text "FIRST CLASS" then
        { acc.1 with first_class_seats := some seats,
                     first_class_adult := some pr.1,
                     first_class_child := some pr.2 }
      else if pyContains title_text "ECONOMY" || pyContains title_text "SECOND CLASS" then
        { acc.1 with economy_seats := some seats,
                     economy_adult := some pr.1,
                     economy_child := some pr.2 }
      else acc.1
    (d, true)

/-- One step of the legacy class-button loop (train_monitor.py lines
275-297, identically main.py lines 206-233): seat count from the hyphen
suffix of the button label, prices from the first two span.price elements of
the next div.price-section in the whole document after the button, when such
a block exists and holds at least two price spans. -/
def processButton (flat : List (Nat × Html)) (d : TrainData) (button : Nat × Html) : TrainData :=
  let class_text := pyStrip (innerText button.2)
  if pyContains class_text "FIRST CLASS" then
    let d1 := { d with first_class_seats := some (legacySeats class_text) }
    match findNext flat button.1 priceSection with
    | some ps =>
      (match findAllDesc spanPrice ps with
        | p0 :: p1 :: _ =>
          { d1 with first_class_adult := some (pyStrip (innerText p0.2)),
                    first_class_child := some (pyStrip (innerText p1.2)) }
        | _ => d1)
    | none => d1
  else if pyContains class_text "ECONOMY" || pyContains class_text "SECOND CLASS" then
    let d1 := { d with economy_seats := some (legacySeats class_text) }
    match findNext flat button.1 priceSection with
    | some ps =>
      (match findAllDesc spanPrice ps with
        | p0 :: p1 :: _ =>
          { d1 with economy_adult := some (pyStrip (innerText p0.2)),
                    economy_child := some (pyStrip (innerText p1.2)) }
        | _ => d1)
    | none => d1
  else d

/-- Class columns of a block, as found by find_all with the two column
classes (train_monitor.py line 230). -/
def colsOf (form : Nat × Html) : List (Nat × Html) := findAllDesc colDiv form

/-- Legacy class buttons of a block (train_monitor.py line 274). -/
def buttonsOf (form : Nat × Html) : List (Nat × Html) := findAllDesc classBtn form

/-- Legacy class-button strategy applied to a block: fold the button loop
over the block's class buttons. -/
def extractLegacyClasses (flat : List (Nat × Html)) (d : TrainData) (form : Nat × Html) : TrainData :=
  (buttonsOf form).foldl (processButton flat) d

/-- Extraction of one train block (train_monitor.py lines 198-297): times
with per-group fallback, name, newer-layout class columns, and the legacy
class-button strategy exactly when no column carried a box-title heading. -/
def parseForm (flat : List (Nat × Html)) (form : Nat × Html) : TrainData :=
  let d3 := extractName (extractTimes form) form
  let r := (colsOf form).foldl processCol (d3, false)
  if r.2 then r.1 else extractLegacyClasses flat r.1 form

/-- Detection of the fully-booked page (train_monitor.py lines 184-185,
main.py lines 153-154): the first h4.main-message of the document exists and
its text contains the marker phrase. -/
def fullyBookedDetected (flat : List (Nat × Html)) : Bool :=
  match soupFind flat h4MainMessage with
  | some fb => pyContains (innerText fb.2) "Fully Booked"
  | none => false

/-- AvailabilityChecker.check_availability (train_monitor.py lines 176-305).
The input is none for an empty or null response body and some doc for a
non-empty body parsing to the node list doc. Returns the availability flag
and the list of extracted trains: (false, []) for empty input, a detected
fully-booked page, or a page with no results container; (true, trains)
otherwise. -/
def check_availability (html : Option (List Html)) : Bool × List TrainData :=
  match html with
  | none => (false, [])
  | some doc =>
    let flat := locFlat doc
    if fullyBookedDetected flat then (false, [])
    else
      match soupFind flat formTagsDiv with
      | none => (false, [])
      | some form_tags => (true, (findAllDesc bookingForm form_tags).map (parseForm flat))

/-- check_trains_available (main.py lines 140-165): false for empty input or
a detected fully-booked page, else true exactly when the results container
is present. -/
def check_trains_available (html : Option (List Html)) : Bool :=
  match html with
  | none => false
  | some doc =>
    let flat := locFlat doc
    if fullyBookedDetected flat then false
    else (soupFind flat formTagsDiv).isSome

/-- Extraction of one train block in main.py (lines 188-235): name from h3
only (no synthesis), times from div.time only, classes from the legacy
buttons only. -/
def parseFormMain (flat : List (Nat × Html)) (form : Nat × Html) : TrainData :=
  let d0 : TrainData := {}
  let d1 :=
    match findDesc h3Tag form with
    | some h => { d0 with name := some (pyStrip (innerText h.2)) }
    | none => d0
  let d2 :=
    match findAllDesc divTime form with
    | t0 :: t1 :: _ =>
      { d1 with departure := some (pyStrip (innerText t0.2)),
                arrival := some (pyStrip (innerText t1.2)) }
    | _ => d1
  (buttonsOf form).foldl (processButton flat) d2

/-- parse_available_trains (main.py lines 168-241): empty for empty input or
a missing results container, else one entry per booking form. -/
def parse_available_trains (html : Option (List Html)) : List TrainData :=
  match html with
  | none => []
  | some doc =>
    let flat := locFlat doc
    match soupFind flat formTagsDiv with
    | none => []
    | some form_tags => (findAllDesc bookingForm form_tags).map (parseFormMain flat)

/-- Python str(x) of an optional string, rendering an absent value as None,
as an f-string renders a dict .get miss. -/
def pyNoneStr : Option String → String
  | some s => s
  | none => "None"

/-- Deduplication key of TrainMonitor.check_job (train_monitor.py line 403):
the f-string joining date, name, departure, and the two seat counts (each
defaulting to 0) with fixed separators. -/
def cacheKey (date : String) (t : TrainData) : String :=
  date ++ "_" ++ pyNoneStr t.name ++ "_" ++ pyNoneStr t.departure ++ "_fclass" ++
    natToStr (t.first_class_seats.getD 0) ++ "_eco" ++ natToStr (t.economy_seats.getD 0)

/-- One iteration of the alert loop of check_job (train_monitor.py lines
397-411): accumulate the keys of dispatched notifications and the cache; a
train is dispatched exactly when its key is not yet cached, and its key is
then added to the cache. -/
def alertStep (date : String) (acc : List String × List String) (t : TrainData) : List String × List String :=
  let key := cacheKey date t
  if key ∈ acc.2 then acc else (acc.1 ++ [key], key :: acc.2)

/-- Alert dispatches of one check cycle over a parsed train list, starting
from the given cache: returns the keys dispatched this cycle, in order, and
the updated cache. -/
def check_job_alerts (date : String) (trains : List TrainData) (cache : List String) :
    List String × List String :=
  trains.foldl (alertStep date) ([], cache)

/-- Concrete input: a fully-booked heading carrying the marker phrase. -/
def fbHeading : Html :=
  .elem "h4" ["main-message"] [] [.text "Sorry, Trains are Fully Booked"]

/-- Concrete input: a page with neither the results container nor a
main-message heading. -/
def plainPage : List Html := [.elem "p" [] [] [.text "maintenance"]]

/-- Concrete input: a fully-booked page. -/
def bookedPage : List Html := [fbHeading]

/-- Concrete input: a page whose first main-message heading lacks the marker
phrase, followed by a second main-message heading that carries it, and a
results container. -/
def mixedHeadingsPage : List Html :=
  [.elem "h4" ["main-message"] [] [.text "Welcome"], fbHeading,
   .elem "div" [] [("id", "form-tags")] []]

/-- Concrete input: a results container with zero train blocks. -/
def emptyContainerPage : List Html := [.elem "div" [] [("id", "form-tags")] []]

/-- Concrete input: a block where the newer layout yields both times, one
column carries a box-title of an unrecognised class (so found_classes is
set without populating any class field), and a legacy class button with an
extractable seat count is present. -/
def mixedForm : Html :=
  .elem "form" [] [("action", "booking-details.php")]
    [.elem "small" ["resulttime"] []
       [.text "Departure: ", .elem "span" ["span"] [] [.text "04:30 pm"]],
     .elem "small" ["resulttime"] []
       [.text "Arrival: ", .elem "span" ["span"] [] [.text "08:10 pm"]],
     .elem "div" ["col-md-6"] []
       [.elem "h4" ["box-title"] [] [.text "BUSINESS CLASS - 2 SEATS OPEN"]],
     .elem "button" ["class-btn"] [] [.text "FIRST CLASS - 5"]]

/-- Concrete input: page holding the mixed-layout block. -/
def mixedFormPage : List Html := [.elem "div" [] [("id", "form-tags")] [mixedForm]]

/-- Concrete input: a legacy-layout block with times and a first-class
button but no h3 heading and no price block anywhere. -/
def legacyForm : Html :=
  .elem "form" [] [("action", "booking-details.php")]
    [.elem "div" ["time"] [] [.text "08:00"],
     .elem "div" ["time"] [] [.text "12:00"],
     .elem "button" ["class-btn"] [] [.text "FIRST CLASS - 5"]]

/-- Concrete input: page holding the legacy block. -/
def legacyPage : List Html := [.elem "div" [] [("id", "form-tags")] [legacyForm]]

/-- Concrete input: a well-formed legacy block with an h3 name. -/
def namedForm (nm dep arr seats : String) : Html :=
  .elem "form" [] [("action", "booking-details.php")]
    [.elem "h3" [] [] [.text nm],
     .elem "div" ["time"] [] [.text dep],
     .elem "div" ["time"] [] [.text arr],
     .elem "button" ["class-btn"] [] [.text ("FIRST CLASS - " ++ seats)]]

/-- Concrete input: a degenerate block with no extractable content at all. -/
def emptyForm : Html := .elem "form" [] [("action", "booking-details.php")] []

/-- Concrete input: a results container holding three well-formed blocks and
one degenerate block. -/
def fourFormPage : List Html :=
  [.elem "div" [] [("id", "form-tags")]
    [namedForm "Express A" "08:00" "12:00" "3", emptyForm,
     namedForm "Express B" "14:00" "18:00" "7",
     namedForm "Express C" "20:00" "23:00" "2"]]

/-- Concrete input: a first-class column whose only details list carries a
label matching neither the adult nor the children price. -/
def unmatchedCol : Nat × Html :=
  (0, .elem "div" ["col-md-6"] []
    [.elem "h4" ["box-title"] [] [.text "FIRST CLASS - 4 SEATS OPEN"],
     .elem "dl" ["details"] []
       [.elem "dt" [] [] [.text "Senior fare"], .elem "dd" [] [] [.text "KES 900"]]])

/-- Concrete train for the deduplication scenario. -/
def trainA : TrainData :=
  { name := some "Train 08:00", departure := some "08:00",
    first_class_seats := some 3, economy_seats := some 10 }

/-- The same train with a changed first-class seat count. -/
def trainA2 : TrainData := { trainA with first_class_seats := some 2 }

/-- Concrete input: a fully-booked heading followed by a results container,
for the priority scenario. -/
def bookedWithContainerPage : List Html :=
  [fbHeading, .elem "div" [] [("id", "form-tags")] []]

/-- Numeric value of a digit string under the decimal fold (used to relate
natToStrList back to the number it renders). -/
def strVal (l : List Char) : Nat := l.foldl (fun a c => a * 10 + (c.toNat - 48)) 0

/-!  Helper lemmas. -/

/-- Characters 48 + k for k below ten are the decimal digits. -/
theorem charOfNat_toNat (k : Nat) (h : k < 10) : (Char.ofNat (48 + k)).toNat = 48 + k := by
  interval_cases k <;> decide

/-- Characters 48 + k for k below ten satisfy isDigit. -/
theorem charOfNat_isDigit (k : Nat) (h : k < 10) : (Char.ofNat (48 + k)).isDigit = true := by
  interval_cases k <;> decide

/-- The accumulator of natToStrGo is a suffix: rendering onto acc appends acc. -/
theorem natToStrGo_append : ∀ f n acc, n < f →
    natToStrGo f n acc = natToStrGo f n [] ++ acc := by
  intro f
  induction f with
  | zero => intro n acc h; omega
  | succ f ih =>
    intro n acc h
    by_cases h10 : n < 10
    · simp [natToStrGo, h10]
    · have hd : n / 10 < f := by
        have := Nat.div_lt_self (by omega : 0 < n) (by omega : 1 < 10)
        omega
      simp only [natToStrGo, if_neg h10]
      rw [ih (n / 10) (Char.ofNat (48 + n % 10) :: acc) hd,
          ih (n / 10) [Char.ofNat (48 + n % 10)] hd, List.append_assoc]
      simp

/-- Any sufficient fuel yields the same rendering. -/
theorem natToStrGo_fuel : ∀ n f g, n < f → n < g →
    natToStrGo f n [] = natToStrGo g n [] := by
  intro n
  induction n using Nat.strong_induction_on with
  | _ n ih =>
    intro f g hf hg
    match f, g with
    | f + 1, g + 1 =>
      by_cases h10 : n < 10
      · simp [natToStrGo, h10]
      · have hlt : n / 10 < n := Nat.div_lt_self (by omega) (by omega)
        simp only [natToStrGo, if_neg h10]
        rw [natToStrGo_append f (n / 10) _ (by omega),
            natToStrGo_append g (n / 10) _ (by omega),
            ih (n / 10) hlt f g (by omega) (by omega)]

/-- The decimal fold recovers the rendered number. -/
theorem strVal_natToStrList (n : Nat) : strVal (natToStrList n) = n := by
  induction n using Nat.strong_induction_on with
  | _ n ih =>
    unfold natToStrList
    by_cases h10 : n < 10
    · simp [natToStrGo, h10, strVal, charOfNat_toNat n h10]
    · have hlt : n / 10 < n := Nat.div_lt_self (by omega) (by omega)
      simp only [natToStrGo, if_neg h10]
      rw [natToStrGo_append n (n / 10) _ (by omega),
          natToStrGo_fuel (n / 10) n (n / 10 + 1) (by omega) (by omega)]
      have h2 : strVal (natToStrGo (n / 10 + 1) (n / 10) [] ++ [Char.ofNat (48 + n % 10)]) =
          strVal (natToStrGo (n / 10 + 1) (n / 10) []) * 10 +
            ((Char.ofNat (48 + n % 10)).toNat - 48) := by
        unfold strVal
        rw [List.foldl_append]
        rfl
      rw [h2]
      have ih' := ih (n / 10) hlt
      unfold natToStrList at ih'
      rw [ih', charOfNat_toNat (n % 10) (by omega)]
      omega

/-- Decimal renderings of distinct numbers are distinct. -/
theorem natToStrList_inj {m n : Nat} (h : natToStrList m = natToStrList n) : m = n := by
  have hm := strVal_natToStrList m
  rw [h, strVal_natToStrList] at hm
  omega

/-- Every character of a decimal rendering is a digit. -/
theorem natToStrList_digits (n : Nat) : ∀ c ∈ natToStrList n, c.isDigit = true := by
  have go : ∀ f n acc, (∀ c ∈ acc, c.isDigit = true) →
      ∀ c ∈ natToStrGo f n acc, c.isDigit = true := by
    intro f
    induction f with
    | zero => intro n acc hacc c hc; exact hacc c hc
    | succ f ih =>
      intro n acc hacc c hc
      by_cases h10 : n < 10
      · simp only [natToStrGo, if_pos h10] at hc
        rcases List.mem_cons.mp hc with h | h
        · subst h; exact charOfNat_isDigit n h10
        · exact hacc c h
      · simp only [natToStrGo, if_neg h10] at hc
        refine ih (n / 10) _ ?_ c hc
        intro d hd
        rcases List.mem_cons.mp hd with h | h
        · subst h; exact charOfNat_isDigit (n % 10) (by omega)
        · exact hacc d h
  exact go (n + 1) n [] (by simp)

/-- An underscore-separated concatenation of a digit run and a tail is
unambiguous: equal concatenations have equal runs and equal tails. -/
theorem digit_code_split : ∀ xs ys as' bs : List Char,
    (∀ c ∈ xs, c.isDigit = true) → (∀ c ∈ ys, c.isDigit = true) →
    xs ++ '_' :: as' = ys ++ '_' :: bs → xs = ys ∧ as' = bs := by
  intro xs
  induction xs with
  | nil =>
    intro ys as' bs _ hy h
    cases ys with
    | nil => simp_all
    | cons y ys' =>
      simp only [List.nil_append, List.cons_append] at h
      injection h with h1 h2
      have := hy y (by simp)
      rw [← h1] at this
      exact absurd this (by decide)
  | cons x xs' ih =>
    intro ys as' bs hx hy h
    cases ys with
    | nil =>
      simp only [List.cons_append, List.nil_append] at h
      injection h with h1 h2
      have := hx x (by simp)
      rw [h1] at this
      exact absurd this (by decide)
    | cons y ys' =>
      simp only [List.cons_append] at h
      injection h with h1 h2
      have := ih ys' as' bs (fun c hc => hx c (by simp [hc])) (fun c hc => hy c (by simp [hc])) h2
      exact ⟨by rw [h1, this.1], this.2⟩

/-- Character data of an appended string. -/
theorem strData_append (a b : String) : (a ++ b).data = a.data ++ b.data := by
  cases a; cases b; rfl

/-- Character data of a deduplication key, flattened. -/
theorem cacheKey_data (date : String) (t : TrainData) :
    (cacheKey date t).data =
      date.data ++ '_' :: ((pyNoneStr t.name).data ++ '_' :: ((pyNoneStr t.departure).data ++
        '_' :: 'f' :: 'c' :: 'l' :: 'a' :: 's' :: 's' ::
          (natToStrList (t.first_class_seats.getD 0) ++
            '_' :: 'e' :: 'c' :: 'o' :: natToStrList (t.economy_seats.getD 0)))) := by
  have e1 : "_".data = ['_'] := rfl
  have e2 : "_fclass".data = ['_', 'f', 'c', 'l', 'a', 's', 's'] := rfl
  have e3 : "_eco".data = ['_', 'e', 'c', 'o'] := rfl
  have e4 : ∀ n, (natToStr n).data = natToStrList n := fun _ => rfl
  simp [cacheKey, strData_append, e1, e2, e3, e4, List.append_assoc]

/-- Keys of trains agreeing on name and departure agree exactly when the two
seat counts agree. -/
theorem cacheKey_eq_seats (date : String) (t t' : TrainData)
    (hn : t.name = t'.name) (hd : t.departure = t'.departure)
    (h : cacheKey date t = cacheKey date t') :
    t.first_class_seats.getD 0 = t'.first_class_seats.getD 0 ∧
    t.economy_seats.getD 0 = t'.economy_seats.getD 0 := by
  have hdata := congrArg String.data h
  rw [cacheKey_data, cacheKey_data, hn, hd] at hdata
  have h1 := List.append_cancel_left hdata
  injection h1 with _ h2
  have h3 := List.append_cancel_left h2
  injection h3 with _ h4
  have h5 := List.append_cancel_left h4
  injection h5 with _ h6
  injection h6 with _ h7
  injection h7 with _ h8
  injection h8 with _ h9
  injection h9 with _ h10
  injection h10 with _ h11
  injection h11 with _ h12
  obtain ⟨hfc, hrest⟩ := digit_code_split _ _ _ _
    (natToStrList_digits _) (natToStrList_digits _) h12
  injection hrest with _ hr1
  injection hr1 with _ hr2
  injection hr2 with _ hr3
  exact ⟨natToStrList_inj hfc, natToStrList_inj hr3⟩

/-- A fold whose step fixes every accumulator on the given list is the
identity. -/
theorem foldl_fix {α β : Type} (f : β → α → β) (l : List α)
    (h : ∀ x ∈ l, ∀ acc, f acc x = acc) : ∀ b, l.foldl f b = b := by
  induction l with
  | nil => intro b; rfl
  | cons a l ih =>
    intro b
    rw [List.foldl_cons, h a (by simp)]
    exact ih (fun x hx acc => h x (by simp [hx]) acc) b

/-- The class-column step never touches the name field. -/
theorem processCol_keeps_name (acc : TrainData × Bool) (col : Nat × Html) :
    ((processCol acc col).1).name = acc.1.name := by
  unfold processCol
  cases findDesc boxTitle col with
  | none => rfl
  | some title =>
    dsimp only
    split
    · rfl
    · split <;> rfl

/-- The class-column fold never touches the name field. -/
theorem foldl_processCol_name (cols : List (Nat × Html)) (acc : TrainData × Bool) :
    ((cols.foldl processCol acc).1).name = acc.1.name := by
  induction cols generalizing acc with
  | nil => rfl
  | cons c cs ih => rw [List.foldl_cons, ih, processCol_keeps_name]

/-- The legacy-button step never touches the name field. -/
theorem processButton_keeps_name (flat : List (Nat × Html)) (d : TrainData) (b : Nat × Html) :
    (processButton flat d b).name = d.name := by
  unfold processButton
  dsimp only
  repeat' split
  all_goals rfl

/-- The legacy-button fold never touches the name field. -/
theorem foldl_processButton_name (flat : List (Nat × Html)) (bs : List (Nat × Html)) (d : TrainData) :
    (bs.foldl (processButton flat) d).name = d.name := by
  induction bs generalizing d with
  | nil => rfl
  | cons b bs ih => rw [List.foldl_cons, ih, processButton_keeps_name]

/-- When every details list of a column matches neither price label, the
price fold keeps both sentinels. -/
theorem extractPrices_unmatched (col : Nat × Html)
    (h : (findAllDesc dlDetails col).all dlUnmatched = true) :
    extractPrices col = ("N/A", "N/A") := by
  unfold extractPrices
  apply foldl_fix
  intro dl hdl pr
  have hb := List.all_eq_true.mp h dl hdl
  unfold dlUnmatched at hb
  dsimp only
  cases hdt : findDesc dtTag dl with
  | none =>
    simp only [hdt]
  | some dt =>
    cases hdd : findDesc ddTag dl with
    | none => simp only [hdt, hdd]
    | some dd =>
      simp only [hdt, hdd] at hb ⊢
      rw [Bool.and_eq_true] at hb
      obtain ⟨h1, h2⟩ := hb
      rw [Bool.not_eq_true'] at h1 h2
      simp [h1, h2]

/-!  Claim theorems. -/

/-- Claim C1, counterexample: the interpreter has no distinct Unrecognized
outcome in its return value. An input with neither the results container nor
any main-message heading returns (false, []) — exactly the value returned for
a fully-booked page and for empty input, so the unrecognized case is not
distinguishable from FullyBooked in the return value (only in logging). -/
theorem c1_no_distinct_outcome_counterexample :
    check_availability (some plainPage) = (false, []) ∧
    check_availability (some bookedPage) = (false, []) ∧
    check_availability none = (false, []) ∧
    check_availability (some plainPage) = check_availability (some bookedPage) :=
  ⟨by decide, by decide, rfl, by decide⟩

/-- Claim C1, amended: for every input containing neither the results
container (div id form-tags) nor a main-message heading whose text contains
the marker phrase — including empty input — check_availability returns
(false, []): it never returns an available outcome (in particular not
(true, [])), but this value coincides with the fully-booked return value, so
the unrecognized case is distinguished only in logging, not in the return
value. -/
theorem c1_unrecognized_returns_false_nil (html : Option (List Html))
    (h1 : (locFlat (html.getD [])).all (fun x => !formTagsDiv x.2) = true)
    (h2 : (locFlat (html.getD [])).all
      (fun x => !h4MainMessage x.2 || !pyContains (innerText x.2) "Fully Booked") = true) :
    check_availability html = (false, []) := by
  cases html with
  | none => rfl
  | some doc =>
    simp only [Option.getD] at h1 h2
    have hfbd : fullyBookedDetected (locFlat doc) = false := by
      unfold fullyBookedDetected soupFind
      cases hfb : (locFlat doc).find? (fun y => h4MainMessage y.2) with
      | none => rfl
      | some fb =>
        have hh : h4MainMessage fb.2 = true := by simpa using List.find?_some hfb
        have hcon := List.all_eq_true.mp h2 fb (List.mem_of_find?_eq_some hfb)
        simp only [hh, Bool.not_true, Bool.false_or, Bool.not_eq_true'] at hcon
        exact hcon
    have hft : soupFind (locFlat doc) formTagsDiv = none := by
      unfold soupFind
      cases hf : (locFlat doc).find? (fun y => formTagsDiv y.2) with
      | none => rfl
      | some ft =>
        have hp : formTagsDiv ft.2 = true := by simpa using List.find?_some hf
        have := List.all_eq_true.mp h1 ft (List.mem_of_find?_eq_some hf)
        simp [hp] at this
    simp [check_availability, hfbd, hft]

/-- Witness for the amended C1 on a concrete unrecognized page. -/
theorem c1_unrecognized_returns_false_nil_witness :
    ((locFlat ((some plainPage).getD [])).all (fun x => !formTagsDiv x.2) = true) ∧
    ((locFlat ((some plainPage).getD [])).all
      (fun x => !h4MainMessage x.2 || !pyContains (innerText x.2) "Fully Booked") = true) ∧
    check_availability (some plainPage) = (false, []) :=
  ⟨by decide, by decide, c1_unrecognized_returns_false_nil (some plainPage) (by decide) (by decide)⟩

/-- Claim C2, counterexample: fallback is not per-field. In mixedFormPage the
newer layout yields both times and the block's only box-title column names an
unrecognised class, so no class field is populated by the newer strategy; a
legacy class button labelled FIRST CLASS - 5 is present (its legacy
extraction yields 5), yet the parsed train has no first_class_seats key: the
legacy class-button strategy was not applied, because the found_classes flag
was already set by the unmatched column. -/
theorem c2_per_field_fallback_counterexample :
    (check_availability (some mixedFormPage)).2 =
      [{ name := some "Train 04:30 pm", departure := some "04:30 pm",
         arrival := some "08:10 pm" }] ∧
    legacySeats "FIRST CLASS - 5" = 5 :=
  ⟨by decide, by decide⟩

/-- Claim C2, amended: fallback is gated per strategy group, not per field:
the legacy time strategy applies exactly when the newer layout left the
departure key empty, and the legacy class-button strategy applies exactly
when no column of the block carries a box-title heading — even if a column
with a box-title populated no class field. In particular, for every block
none of whose columns carries a box-title (whether or not the newer layout
yielded times), the result is the legacy class-button strategy applied to
the block after time and name extraction. -/
theorem c2_legacy_strategy_gating (flat : List (Nat × Html)) (form : Nat × Html)
    (h : (colsOf form).all (fun col => (findDesc boxTitle col).isNone) = true) :
    parseForm flat form =
      extractLegacyClasses flat (extractName (extractTimes form) form) form := by
  unfold parseForm
  have hfix : (colsOf form).foldl processCol (extractName (extractTimes form) form, false) =
      (extractName (extractTimes form) form, false) := by
    apply foldl_fix
    intro col hcol acc
    have hb := List.all_eq_true.mp h col hcol
    have hnone : findDesc boxTitle col = none := by
      simpa [Option.isNone_iff_eq_none] using hb
    unfold processCol
    rw [hnone]
  dsimp only
  rw [hfix]
  rfl

/-- Witness for the amended C2 on a legacy block that the newer layout gave
times for through the fallback, with a class button that is applied. -/
theorem c2_legacy_strategy_gating_witness :
    ((colsOf ((1 : Nat), legacyForm)).all (fun col => (findDesc boxTitle col).isNone) = true) ∧
    parseForm (locFlat legacyPage) ((1 : Nat), legacyForm) =
      extractLegacyClasses (locFlat legacyPage)
        (extractName (extractTimes ((1 : Nat), legacyForm)) ((1 : Nat), legacyForm))
        ((1 : Nat), legacyForm) :=
  ⟨by decide, c2_legacy_strategy_gating (locFlat legacyPage) ((1 : Nat), legacyForm) (by decide)⟩

/-- Claim C3, counterexample: mixedHeadingsPage contains a main-message
heading whose text carries the marker phrase, and a results container, yet
the interpreter returns the available outcome (true, []) rather than the
fully-booked result — only the first main-message heading is inspected. -/
theorem c3_priority_counterexample :
    ((locFlat mixedHeadingsPage).any
      (fun x => h4MainMessage x.2 && pyContains (innerText x.2) "Fully Booked") = true) ∧
    check_availability (some mixedHeadingsPage) = (true, []) :=
  ⟨by decide, by decide⟩

/-- Claim C3, amended: for every input whose first h4 heading of class
main-message (in document order) has text containing the marker phrase, the
interpreter returns the fully-booked result (false, []), regardless of
whether a results container is also present. -/
theorem c3_first_heading_priority (doc : List Html) (x : Nat × Html)
    (hx : soupFind (locFlat doc) h4MainMessage = some x)
    (hm : pyContains (innerText x.2) "Fully Booked" = true) :
    check_availability (some doc) = (false, []) := by
  have hfbd : fullyBookedDetected (locFlat doc) = true := by
    unfold fullyBookedDetected
    rw [hx]
    exact hm
  simp [check_availability, hfbd]

/-- Witness for the amended C3: a fully-booked heading with a results
container also present still yields the fully-booked result. -/
theorem c3_first_heading_priority_witness :
    (soupFind (locFlat bookedWithContainerPage) h4MainMessage = some ((0 : Nat), fbHeading)) ∧
    (pyContains (innerText ((0 : Nat), fbHeading).2) "Fully Booked" = true) ∧
    check_availability (some bookedWithContainerPage) = (false, []) :=
  ⟨rfl, by decide,
    c3_first_heading_priority bookedWithContainerPage ((0 : Nat), fbHeading) rfl (by decide)⟩

/-- Claim C4: across two cycles whose parsed results contain a train with an
identical deduplication key, exactly one dispatch occurs (the first cycle
dispatches it, the second dispatches nothing); a later cycle in which the
same train's seat count differs — which forces a different key — produces a
second, distinct dispatch. -/
theorem c4_dedup_alerts (date : String) (t t' : TrainData) (cache : List String)
    (h1 : cacheKey date t ∉ cache) (h2 : cacheKey date t' ∉ cache)
    (hn : t'.name = t.name) (hd : t'.departure = t.departure)
    (hs : t'.first_class_seats.getD 0 ≠ t.first_class_seats.getD 0 ∨
          t'.economy_seats.getD 0 ≠ t.economy_seats.getD 0) :
    (check_job_alerts date [t] cache).1 = [cacheKey date t] ∧
    (check_job_alerts date [t] (check_job_alerts date [t] cache).2).1 = [] ∧
    (check_job_alerts date [t']
        (check_job_alerts date [t] (check_job_alerts date [t] cache).2).2).1 =
      [cacheKey date t'] ∧
    cacheKey date t' ≠ cacheKey date t := by
  have hne : cacheKey date t' ≠ cacheKey date t := by
    intro he
    rcases cacheKey_eq_seats date t' t hn hd he with ⟨hfc, hec⟩
    rcases hs with hs | hs
    · exact hs hfc
    · exact hs hec
  have e1 : check_job_alerts date [t] cache =
      ([cacheKey date t], cacheKey date t :: cache) := by
    simp [check_job_alerts, alertStep, h1]
  have e2 : check_job_alerts date [t] (cacheKey date t :: cache) =
      ([], cacheKey date t :: cache) := by
    simp [check_job_alerts, alertStep]
  have e3 : check_job_alerts date [t'] (cacheKey date t :: cache) =
      ([cacheKey date t'], cacheKey date t' :: cacheKey date t :: cache) := by
    simp [check_job_alerts, alertStep, hne, h2]
  refine ⟨by rw [e1], by rw [e1, e2], by rw [e1, e2, e3], hne⟩

/-- Witness for C4 on a concrete train, repeated cycle, and changed seat
count. -/
theorem c4_dedup_alerts_witness :
    (cacheKey "02/01/2026" trainA ∉ ([] : List String)) ∧
    (cacheKey "02/01/2026" trainA2 ∉ ([] : List String)) ∧
    (trainA2.first_class_seats.getD 0 ≠ trainA.first_class_seats.getD 0) ∧
    ((check_job_alerts "02/01/2026" [trainA] []).1 = [cacheKey "02/01/2026" trainA] ∧
     (check_job_alerts "02/01/2026" [trainA]
        (check_job_alerts "02/01/2026" [trainA] []).2).1 = [] ∧
     (check_job_alerts "02/01/2026" [trainA2]
        (check_job_alerts "02/01/2026" [trainA]
          (check_job_alerts "02/01/2026" [trainA] []).2).2).1 =
       [cacheKey "02/01/2026" trainA2] ∧
     cacheKey "02/01/2026" trainA2 ≠ cacheKey "02/01/2026" trainA) :=
  ⟨by simp, by simp, by decide,
    c4_dedup_alerts "02/01/2026" trainA trainA2 [] (by simp) (by simp) rfl rfl
      (Or.inl (by decide))⟩

/-- Claim C5, counterexample: a response with one degenerate block among
three well-formed blocks yields four train entries, not two: the per-block
try/except of the source never fires because no step of the embedded
extraction raises, so even the degenerate block contributes an entry (with
only a synthesized name). -/
theorem c5_partial_failure_counterexample :
    (check_availability (some fourFormPage)).2.length = 4 ∧
    (check_availability (some fourFormPage)).2.map (fun t => t.name) =
      [some "Express A", some "Train Unknown", some "Express B", some "Express C"] :=
  ⟨by decide, by decide⟩

/-- Claim C5, amended: the extraction of a block is total — the source's
per-block try/except is dead code in the embedded semantics — so every
enumerated block contributes exactly one train entry and no block aborts the
others: the number of results always equals the number of booking forms in
the container. -/
theorem c5_block_count (doc : List Html) (form_tags : Nat × Html)
    (hfb : fullyBookedDetected (locFlat doc) = false)
    (hft : soupFind (locFlat doc) formTagsDiv = some form_tags) :
    (check_availability (some doc)).2.length =
      (findAllDesc bookingForm form_tags).length := by
  simp [check_availability, hfb, hft]

/-- Witness for the amended C5 on the four-block page. -/
theorem c5_block_count_witness :
    (fullyBookedDetected (locFlat fourFormPage) = false) ∧
    ((check_availability (some fourFormPage)).2.length =
      (findAllDesc bookingForm ((0 : Nat),
        Html.elem "div" [] [("id", "form-tags")]
          [namedForm "Express A" "08:00" "12:00" "3", emptyForm,
           namedForm "Express B" "14:00" "18:00" "7",
           namedForm "Express C" "20:00" "23:00" "2"])).length) :=
  ⟨by decide,
    c5_block_count fourFormPage ((0 : Nat),
      Html.elem "div" [] [("id", "form-tags")]
        [namedForm "Express A" "08:00" "12:00" "3", emptyForm,
         namedForm "Express B" "14:00" "18:00" "7",
         namedForm "Express C" "20:00" "23:00" "2"]) (by decide) rfl⟩

/-- Claim C6: whenever the fully-booked branch is not taken and the results
container is found, the interpreter returns the available outcome carrying
one parsed train per booking form — even when there are zero forms, in which
case the value is (true, []), which differs from the (false, []) returned
for unrecognized input. -/
theorem c6_container_yields_available (doc : List Html) (form_tags : Nat × Html)
    (hfb : fullyBookedDetected (locFlat doc) = false)
    (hft : soupFind (locFlat doc) formTagsDiv = some form_tags) :
    check_availability (some doc) =
      (true, (findAllDesc bookingForm form_tags).map (parseForm (locFlat doc))) ∧
    check_availability (some doc) ≠ (false, []) := by
  have he : check_availability (some doc) =
      (true, (findAllDesc bookingForm form_tags).map (parseForm (locFlat doc))) := by
    simp [check_availability, hfb, hft]
  refine ⟨he, ?_⟩
  rw [he]
  intro hcon
  exact (by decide : (true : Bool) ≠ false) (congrArg Prod.fst hcon)

/-- Witness for C6 on a container with zero blocks: the available-empty
outcome (true, []). -/
theorem c6_container_yields_available_witness :
    (fullyBookedDetected (locFlat emptyContainerPage) = false) ∧
    check_availability (some emptyContainerPage) = (true, []) ∧
    check_availability (some emptyContainerPage) ≠ (false, []) := by
  have h := c6_container_yields_available emptyContainerPage
    ((0 : Nat), Html.elem "div" [] [("id", "form-tags")] []) (by decide) rfl
  exact ⟨by decide, h.1, h.2⟩

/-- Claim C7: seat counts are natural numbers by construction (the embedding
of int() over a digit-filtered string), and absent or unparseable numeric
text yields 0 rather than an error: for every legacy class-button label
whose segment after the first hyphen contains no digit, and for every label
with no hyphen at all, the extracted seat count is 0 (and the extraction is
a total function — it cannot raise). -/
theorem c7_seats_default_zero (class_text : String)
    (h : pyContains class_text "-" = false ∨
         ((splitOnChar '-' class_text.toList).getD 1 []).all (fun c => !c.isDigit) = true) :
    legacySeats class_text = 0 := by
  unfold legacySeats legacySeatsDigits
  dsimp only
  rcases h with h | h
  · simp [h]
    decide
  · have hf : ((splitOnChar '-' class_text.toList).getD 1 []).filter Char.isDigit = [] := by
      rw [List.filter_eq_nil_iff]
      intro a ha
      have := List.all_eq_true.mp h a ha
      simpa using this
    cases hc : pyContains class_text "-" with
    | false =>
      simp [hc]
      decide
    | true =>
      simp only [hc, eq_self_iff_true, if_true]
      rw [hf]
      decide

/-- Witness for C7 on a label with no digits after the hyphen. -/
theorem c7_seats_default_zero_witness :
    (((splitOnChar '-' ("FIRST CLASS - FULL").toList).getD 1 []).all
      (fun c => !c.isDigit) = true) ∧
    legacySeats "FIRST CLASS - FULL" = 0 :=
  ⟨by decide, c7_seats_default_zero "FIRST CLASS - FULL" (Or.inr (by decide))⟩

/-- Claim C8, counterexample: not every parsed train result has a name.
main.py's parser, cited by the claim, synthesizes no name: on the legacy
block of legacyPage — which yields a departure time but has no h3 heading —
parse_available_trains returns a train with a departure key and no name key
at all. -/
theorem c8_main_no_name_counterexample :
    (parse_available_trains (some legacyPage)).map (fun t => t.name) = [none] ∧
    (parse_available_trains (some legacyPage)).map (fun t => t.departure) =
      [some "08:00"] :=
  ⟨by decide, by decide⟩

/-- Claim C8, amended: in train_monitor.py's interpreter every parsed train
has a name — the stripped text of the block's first h3 heading when present,
else the string Train followed by the extracted departure time, or Train
Unknown when none was extracted — while main.py's parser takes the name only
from an h3 heading and synthesizes nothing, so its parsed train lacks the
name key whenever the block has no h3. -/
theorem c8_name_rules (flat : List (Nat × Html)) (form : Nat × Html) :
    (parseForm flat form).name =
      some (match findDesc h3Tag form with
            | some h => pyStrip (innerText h.2)
            | none => "Train " ++ (extractTimes form).departure.getD "Unknown") ∧
    (parseFormMain flat form).name =
      (match findDesc h3Tag form with
       | some h => some (pyStrip (innerText h.2))
       | none => none) := by
  constructor
  · have hd3 : (extractName (extractTimes form) form).name =
        some (match findDesc h3Tag form with
              | some h => pyStrip (innerText h.2)
              | none => "Train " ++ (extractTimes form).departure.getD "Unknown") := by
      unfold extractName
      cases findDesc h3Tag form <;> rfl
    unfold parseForm
    dsimp only
    split
    · rw [foldl_processCol_name, hd3]
    · unfold extractLegacyClasses
      rw [foldl_processButton_name, foldl_processCol_name, hd3]
  · unfold parseFormMain
    dsimp only
    rw [foldl_processButton_name]
    cases hh : findDesc h3Tag form with
    | some h =>
      cases hdt : findAllDesc divTime form with
      | nil => rfl
      | cons t0 ts =>
        cases ts with
        | nil => rfl
        | cons t1 ts' => rfl
    | none =>
      cases hdt : findAllDesc divTime form with
      | nil => rfl
      | cons t0 ts =>
        cases ts with
        | nil => rfl
        | cons t1 ts' => rfl

/-- Claim C9, counterexample: a parsed fare class can lack a price value. In
legacyPage the legacy first-class button yields a seat count of 5, but the
block has no price section, so the first-class adult and child price keys
are absent entirely — not the sentinel N/A. -/
theorem c9_price_sentinel_counterexample :
    (check_availability (some legacyPage)).2 =
      [{ name := some "Train 08:00", departure := some "08:00",
         arrival := some "12:00", first_class_seats := some 5 }] :=
  by decide

/-- Claim C9, amended: the N/A sentinel applies only in the newer column
layout: for a column bearing a box-title, whenever every details list of the
column matches neither the adult label nor the children label (including
columns with no details lists and columns whose details lists carry other
labels), the adult and child prices of the titled class — first when the
title contains FIRST CLASS, economy when it instead contains ECONOMY or
SECOND CLASS — are both the sentinel N/A. In the legacy button layout the
price fields are left absent instead: when no price block follows a button,
or the following price block holds fewer than two price spans, all four
price fields are unchanged, so a parsed fare class can lack a price value;
when at least two price spans are present, the stored prices are exactly the
whitespace-stripped span texts, upstream-formatted with no currency
normalization. -/
theorem c9_price_defaults (d : TrainData) (b : Bool) (col title : Nat × Html)
    (ht : findDesc boxTitle col = some title)
    (hdl : (findAllDesc dlDetails col).all dlUnmatched = true) :
    extractPrices col = ("N/A", "N/A") ∧
    (pyContains (pyUpper (pyStrip (innerText title.2))) "FIRST CLASS" = true →
      (processCol (d, b) col).1.first_class_adult = some "N/A" ∧
      (processCol (d, b) col).1.first_class_child = some "N/A") ∧
    (pyContains (pyUpper (pyStrip (innerText title.2))) "FIRST CLASS" = false →
      (pyContains (pyUpper (pyStrip (innerText title.2))) "ECONOMY" ||
       pyContains (pyUpper (pyStrip (innerText title.2))) "SECOND CLASS") = true →
      (processCol (d, b) col).1.economy_adult = some "N/A" ∧
      (processCol (d, b) col).1.economy_child = some "N/A") ∧
    (∀ (flat : List (Nat × Html)) (d' : TrainData) (button : Nat × Html),
      findNext flat button.1 priceSection = none →
        (processButton flat d' button).first_class_adult = d'.first_class_adult ∧
        (processButton flat d' button).first_class_child = d'.first_class_child ∧
        (processButton flat d' button).economy_adult = d'.economy_adult ∧
        (processButton flat d' button).economy_child = d'.economy_child) ∧
    (∀ (flat : List (Nat × Html)) (d' : TrainData) (button ps : Nat × Html),
      findNext flat button.1 priceSection = some ps →
      (findAllDesc spanPrice ps).length < 2 →
        (processButton flat d' button).first_class_adult = d'.first_class_adult ∧
        (processButton flat d' button).first_class_child = d'.first_class_child ∧
        (processButton flat d' button).economy_adult = d'.economy_adult ∧
        (processButton flat d' button).economy_child = d'.economy_child) ∧
    (∀ (flat : List (Nat × Html)) (d' : TrainData) (button ps p0 p1 : Nat × Html)
        (rest : List (Nat × Html)),
      pyContains (pyStrip (innerText button.2)) "FIRST CLASS" = true →
      findNext flat button.1 priceSection = some ps →
      findAllDesc spanPrice ps = p0 :: p1 :: rest →
        (processButton flat d' button).first_class_adult =
          some (pyStrip (innerText p0.2)) ∧
        (processButton flat d' button).first_class_child =
          some (pyStrip (innerText p1.2))) ∧
    (∀ (flat : List (Nat × Html)) (d' : TrainData) (button ps p0 p1 : Nat × Html)
        (rest : List (Nat × Html)),
      pyContains (pyStrip (innerText button.2)) "FIRST CLASS" = false →
      (pyContains (pyStrip (innerText button.2)) "ECONOMY" ||
       pyContains (pyStrip (innerText button.2)) "SECOND CLASS") = true →
      findNext flat button.1 priceSection = some ps →
      findAllDesc spanPrice ps = p0 :: p1 :: rest →
        (processButton flat d' button).economy_adult =
          some (pyStrip (innerText p0.2)) ∧
        (processButton flat d' button).economy_child =
          some (pyStrip (innerText p1.2))) := by
  have hpr : extractPrices col = ("N/A", "N/A") := extractPrices_unmatched col hdl
  refine ⟨hpr, ?_, ?_, ?_, ?_, ?_, ?_⟩
  · intro hfc
    unfold processCol
    rw [ht]
    dsimp only
    rw [hpr, hfc]
    exact ⟨rfl, rfl⟩
  · intro hnf heco
    unfold processCol
    rw [ht]
    dsimp only
    rw [hpr, hnf, heco]
    exact ⟨rfl, rfl⟩
  · intro flat d' button hnone
    unfold processButton
    simp only [hnone]
    repeat' split
    all_goals exact ⟨rfl, rfl, rfl, rfl⟩
  · intro flat d' button ps hps hlen
    unfold processButton
    simp only [hps]
    repeat' split
    all_goals first
      | exact ⟨rfl, rfl, rfl, rfl⟩
      | (exfalso; simp_all; omega)
  · intro flat d' button ps p0 p1 rest hfirst hps hsp
    unfold processButton
    simp only [hfirst, hps, hsp]
    exact ⟨rfl, rfl⟩
  · intro flat d' button ps p0 p1 rest hnf heco hps hsp
    unfold processButton
    simp only [hnf, heco, hps, hsp]
    exact ⟨rfl, rfl⟩

/-- Witness for the amended C9 on a first-class column whose only details
list has an unmatched label. -/
theorem c9_price_defaults_witness :
    (findDesc boxTitle unmatchedCol = some ((1 : Nat),
      Html.elem "h4" ["box-title"] [] [Html.text "FIRST CLASS - 4 SEATS OPEN"])) ∧
    ((findAllDesc dlDetails unmatchedCol).all dlUnmatched = true) ∧
    extractPrices unmatchedCol = ("N/A", "N/A") ∧
    ((processCol ({}, false) unmatchedCol).1.first_class_adult = some "N/A" ∧
     (processCol ({}, false) unmatchedCol).1.first_class_child = some "N/A") :=
  ⟨rfl, by decide,
    (c9_price_defaults {} false unmatchedCol ((1 : Nat),
      Html.elem "h4" ["box-title"] [] [Html.text "FIRST CLASS - 4 SEATS OPEN"])
      rfl (by decide)).1,
    (c9_price_defaults {} false unmatchedCol ((1 : Nat),
      Html.elem "h4" ["box-title"] [] [Html.text "FIRST CLASS - 4 SEATS OPEN"])
      rfl (by decide)).2.1 (by decide)⟩

/-- Claim C10, counterexample: the two drivers do not implement the same
interpreter. On the legacy block of legacyPage (which has no h3 heading),
main.py's parser yields a train with no name key while train_monitor.py's
parser synthesizes Train 08:00, so the two train lists differ. -/
theorem c10_train_list_divergence :
    parse_available_trains (some legacyPage) ≠ (check_availability (some legacyPage)).2 ∧
    (parse_available_trains (some legacyPage)).map (fun t => t.name) = [none] ∧
    ((check_availability (some legacyPage)).2).map (fun t => t.name) =
      [some "Train 08:00"] :=
  ⟨by decide, by decide, by decide⟩

/-- Claim C10, amended: the two drivers agree on the availability decision
for every input — check_trains_available equals the boolean component of
check_availability — but their train lists can differ in content, because
main.py implements only the legacy layout and never synthesizes a name. -/
theorem c10_decision_agreement (html : Option (List Html)) :
    check_trains_available html = (check_availability html).1 := by
  cases html with
  | none => rfl
  | some doc =>
    unfold check_trains_available check_availability
    dsimp only
    cases hfb : fullyBookedDetected (locFlat doc) with
    | true => rfl
    | false =>
      cases hft : soupFind (locFlat doc) formTagsDiv <;> simp [hft]

end MreBot
